import Mathlib

/-!
Shallow embedding of `src/arcadeGraph.py`: the grid constants, the
`Point`/`Velocity`/`Ship` data model, the wrap / advance / reset operations,
the angle computation of `Velocity`, and the `Game` event handlers
(`on_key_press`, `on_mouse_press` dispatch, `manageShipList`, `update`)
as a step function over an explicit scene state.

Positions and velocities are modelled over `Int` (every value the handlers
assign to them is integral).  The angle computation is modelled over `ℝ`
(`math.atan`, `math.degrees`).  Randomness (`random.randint`) is modelled by
passing the drawn values as event parameters.  Draw-only state
(`texture`, `functionalPath`, `drawHelpWindow`, `held_keys`, the wall-clock
double-click timestamp) is omitted; a double click is a separate event, per
the dispatch in `manipulateMainShip`.
-/

/-- Grid width in cells (module constant `SCREEN_WIDTH`). -/
def SCREEN_WIDTH : Int := 12

/-- Grid height in cells (module constant `SCREEN_HEIGHT`). -/
def SCREEN_HEIGHT : Int := 10

/-- Capacity cap on the ship list (module constant `MAX_NUMBER_OF_SHIPS`). -/
def MAX_NUMBER_OF_SHIPS : Nat := 9

/-- Class `Point`: a grid position. -/
structure Point where
  x : Int
  y : Int
deriving DecidableEq, Repr

/-- Class `Velocity` (state part): components `dx`, `dy`. -/
structure Velocity where
  dx : Int
  dy : Int
deriving DecidableEq, Repr

/-- Class `Ship` (state part): a center position and a velocity. -/
structure Ship where
  center : Point
  velocity : Velocity
deriving DecidableEq, Repr

/-- `Ship.reset`: center gets `randint(2, SCREEN_WIDTH-2)` by
`randint(2, SCREEN_HEIGHT-2)` and velocity `randint(-3, 3)` on each axis;
the drawn random values are the four parameters. -/
def shipReset (rx ry rdx rdy : Int) : Ship :=
  { center := { x := rx, y := ry }, velocity := { dx := rdx, dy := rdy } }

/-- The x-axis branch of `Ship.wrapOffScreen`. -/
def wrapX (x : Int) : Int :=
  if x < 0 then SCREEN_WIDTH
  else if x > SCREEN_WIDTH then 0
  else x

/-- The y-axis branch of `Ship.wrapOffScreen`. -/
def wrapY (y : Int) : Int :=
  if y < 0 then SCREEN_HEIGHT
  else if y > SCREEN_HEIGHT then 0
  else y

/-- `Ship.wrapOffScreen`: both axes, independently. -/
def wrapOffScreen (p : Point) : Point :=
  { x := wrapX p.x, y := wrapY p.y }

/-- `Ship.advance`: add the velocity to the center, then wrap when the
wrap flag (global `WRAP_AROUND_SCREEN`) is set. -/
def shipAdvance (wrap : Bool) (s : Ship) : Ship :=
  let moved : Point := { x := s.center.x + s.velocity.dx, y := s.center.y + s.velocity.dy }
  { s with center := if wrap then wrapOffScreen moved else moved }

/-- State of class `Game` relevant to the event handlers.  The process-global
`WRAP_AROUND_SCREEN` is carried as the field `wrap`. -/
structure GameState where
  players : List Ship
  detailed : Bool
  constantUpdate : Bool
  advanceTimer : Int
  playerToManipulate : Int
  g_alpha : Int
  wrap : Bool
deriving DecidableEq, Repr

/-- `Game.__init__`: one freshly reset ship, detail off, timer off,
selected index 0, fully opaque, wrap initially on. -/
def initState (rx ry rdx rdy : Int) : GameState :=
  { players := [shipReset rx ry rdx rdy]
    detailed := false
    constantUpdate := false
    advanceTimer := 0
    playerToManipulate := 0
    g_alpha := 255
    wrap := true }

/-- One discrete input event handled by `Game`.  `reset` and `rightClick`
carry the values drawn by `random.randint` inside `Ship.reset`. -/
inductive GEvent where
  | reset (rx ry rdx rdy : Int)
  | advanceAll
  | velUp
  | velDown
  | velLeft
  | velRight
  | toggleDetail
  | toggleWrap
  | toggleTimer
  | selectIdx (i : Nat)
  | singleClick (x y : Int)
  | doubleClick (x y : Int)
  | rightClick (x y rdx rdy : Int)
  | tick
deriving DecidableEq, Repr

/-- Replace the element at an index of a list (in-place field mutation of
`self.players[i]` in the source). -/
def modifyAt (f : Ship → Ship) : Nat → List Ship → List Ship
  | _, [] => []
  | 0, s :: rest => f s :: rest
  | n + 1, s :: rest => s :: modifyAt f n rest

/-- `Game.shipAtPoint`: first ship whose center equals the given cell. -/
def shipAtPoint (x y : Int) : List Ship → Option Ship
  | [] => none
  | s :: rest =>
    if s.center.x = x ∧ s.center.y = y then some s else shipAtPoint x y rest

/-- `self.players.remove(existingShip)` where `existingShip` is the ship
returned by `shipAtPoint`: removes the first ship at the cell. -/
def removeFirstAt (x y : Int) : List Ship → List Ship
  | [] => []
  | s :: rest =>
    if s.center.x = x ∧ s.center.y = y then rest else s :: removeFirstAt x y rest

/-- The removal loop of `Game.manageShipList`:
`while existingShip != None and len(self.players) > 1`.  Each iteration
removes one ship, so fuel equal to the list length suffices. -/
def removeLoop (x y : Int) : Nat → List Ship → List Ship
  | 0, l => l
  | fuel + 1, l =>
    match shipAtPoint x y l with
    | none => l
    | some _ =>
      if 1 < l.length then removeLoop x y fuel (removeFirstAt x y l) else l

/-- Closed form of the re-clamp loop of `Game.manageShipList`
(`while self.playerToManipulate >= len(self.players): ... -= 1`):
when the loop runs it stops at `n - 1`. -/
def reclampLoop (idx n : Int) : Int :=
  if n ≤ idx then n - 1 else idx

/-- `Game.manageShipList` (right mouse button handler).  `shipWasThere` is
true exactly when the removal loop ran at least once, i.e. when the initial
loop condition held; otherwise the creation branch runs.  The created ship
is `Ship()` (whose constructor calls `reset`, drawing `rdx`, `rdy` for the
velocity) with its center then overwritten by the clicked cell. -/
def manageShipList (x y rdx rdy : Int) (st : GameState) : GameState :=
  if (shipAtPoint x y st.players).isSome ∧ 1 < st.players.length then
    let ps := removeLoop x y st.players.length st.players
    { st with players := ps
              playerToManipulate := reclampLoop st.playerToManipulate ps.length }
  else if st.players.length < MAX_NUMBER_OF_SHIPS then
    { st with players :=
        st.players ++ [{ center := { x := x, y := y }, velocity := { dx := rdx, dy := rdy } }] }
  else st

/-- `Game.update` (one frame tick): fade the opacity back in, then, when the
timer is on, count down and fire an automatic advance-all on expiry. -/
def update (st : GameState) : GameState :=
  let st1 := if st.g_alpha < 255 then { st with g_alpha := st.g_alpha + 15 } else st
  if st1.constantUpdate then
    if st1.advanceTimer - 1 ≤ 0 then
      { st1 with g_alpha := 0
                 players := st1.players.map (shipAdvance st1.wrap)
                 advanceTimer := 30 }
    else { st1 with advanceTimer := st1.advanceTimer - 1 }
  else st1

/-- Event dispatch: `Game.on_key_press`, `Game.on_mouse_press` (already split
into single click, double click and right click) and `Game.update`.
Branches guarded by an index bound correspond to places where the source
would raise `IndexError` on an out-of-range list subscript; they leave the
state unchanged here and are unreachable while the index is in range. -/
def step (st : GameState) (e : GEvent) : GameState :=
  match e with
  | .reset rx ry rdx rdy =>
    match st.players with
    | [] => st
    | _ :: _ => { st with players := [shipReset rx ry rdx rdy] }
  | .advanceAll =>
    { st with g_alpha := 0, players := st.players.map (shipAdvance st.wrap) }
  | .velUp =>
    let f := fun (s : Ship) => { s with velocity := { s.velocity with dy := s.velocity.dy + 1 } }
    { st with players := modifyAt f 0 st.players }
  | .velDown =>
    let f := fun (s : Ship) => { s with velocity := { s.velocity with dy := s.velocity.dy - 1 } }
    { st with players := modifyAt f 0 st.players }
  | .velRight =>
    let f := fun (s : Ship) => { s with velocity := { s.velocity with dx := s.velocity.dx + 1 } }
    { st with players := modifyAt f 0 st.players }
  | .velLeft =>
    let f := fun (s : Ship) => { s with velocity := { s.velocity with dx := s.velocity.dx - 1 } }
    { st with players := modifyAt f 0 st.players }
  | .toggleDetail => { st with detailed := !st.detailed }
  | .toggleWrap =>
    { st with wrap := !st.wrap
              players := st.players.map (fun s => { s with center := wrapOffScreen s.center }) }
  | .toggleTimer => { st with constantUpdate := !st.constantUpdate }
  | .selectIdx i =>
    if i < 9 ∧ (i : Int) < st.players.length then
      { st with playerToManipulate := (i : Int) }
    else st
  | .singleClick x y =>
    if 0 ≤ st.playerToManipulate ∧ st.playerToManipulate < st.players.length then
      let f := fun (s : Ship) =>
        { s with velocity := { dx := x - s.center.x, dy := y - s.center.y } }
      { st with players := modifyAt f st.playerToManipulate.toNat st.players }
    else st
  | .doubleClick x y =>
    if 0 ≤ st.playerToManipulate ∧ st.playerToManipulate < st.players.length then
      let f := fun (s : Ship) => { s with center := { x := x, y := y } }
      { st with players := modifyAt f st.playerToManipulate.toNat st.players }
    else st
  | .rightClick x y rdx rdy => manageShipList x y rdx rdy st
  | .tick => update st

/-- A run of the scene from a state through a list of events. -/
def reach (st : GameState) (evs : List GEvent) : GameState :=
  evs.foldl step st

/-- `Velocity._getTheta`: `math.atan(abs(dy) / abs(dx))`. -/
noncomputable def getTheta (dx dy : ℝ) : ℝ :=
  Real.arctan (|dy| / |dx|)

/-- `math.degrees`: radians to degrees. -/
noncomputable def degreesOfRadians (r : ℝ) : ℝ :=
  r * 180 / Real.pi

/-- `Velocity._fixedForQuadrant`: adjust a reference angle to the quadrant
given by the signs of `dx` and `dy`. -/
noncomputable def fixedForQuadrant (dx dy a : ℝ) : ℝ :=
  if 0 ≤ dx then
    if 0 ≤ dy then a else 360 - a
  else
    if 0 ≤ dy then 180 - a else 180 + a

/-- `Velocity._getDegrees` (the `angle` property). -/
noncomputable def getDegrees (dx dy : ℝ) : ℝ :=
  if dy = 0 then
    if 0 ≤ dx then 0 else 180
  else if dx = 0 then
    if 0 < dy then 90 else 270
  else
    fixedForQuadrant dx dy (degreesOfRadians (getTheta dx dy))

/-- `Velocity._getTheta` with the division guarded: returns `none` exactly
when the divisor `abs(dx)` is zero, i.e. when evaluating the source would
divide by zero. -/
noncomputable def getThetaChecked (dx dy : ℝ) : Option ℝ :=
  if |dx| = 0 then none else some (Real.arctan (|dy| / |dx|))

/-- `Velocity._getDegrees` rebuilt on the guarded `getThetaChecked`, calling
it from exactly the branch the source does. -/
noncomputable def getDegreesChecked (dx dy : ℝ) : Option ℝ :=
  if dy = 0 then
    some (if 0 ≤ dx then 0 else 180)
  else if dx = 0 then
    some (if 0 < dy then 90 else 270)
  else
    (getThetaChecked dx dy).map (fun t => fixedForQuadrant dx dy (degreesOfRadians t))

/-- Modelled from the spec (section 4.1, claim C6): the bearing formula as
the spec states it, to be compared with `getDegrees` from the source. -/
noncomputable def specBearing (dx dy : ℝ) : ℝ :=
  if dy = 0 then
    if 0 ≤ dx then 0 else 180
  else if dx = 0 then
    if 0 < dy then 90 else 270
  else
    let theta := degreesOfRadians (Real.arctan (|dy| / |dx|))
    if 0 ≤ dx then
      if 0 ≤ dy then theta else 360 - theta
    else
      if 0 ≤ dy then 180 - theta else 180 + theta

lemma wrapX_idem (x : Int) : wrapX (wrapX x) = wrapX x := by
  unfold wrapX SCREEN_WIDTH
  split_ifs <;> omega

lemma wrapY_idem (y : Int) : wrapY (wrapY y) = wrapY y := by
  unfold wrapY SCREEN_HEIGHT
  split_ifs <;> omega

lemma wrapX_bounds (x : Int) : 0 ≤ wrapX x ∧ wrapX x ≤ SCREEN_WIDTH := by
  unfold wrapX SCREEN_WIDTH
  split_ifs <;> omega

lemma wrapY_bounds (y : Int) : 0 ≤ wrapY y ∧ wrapY y ≤ SCREEN_HEIGHT := by
  unfold wrapY SCREEN_HEIGHT
  split_ifs <;> omega

lemma wrapOffScreen_idem (p : Point) : wrapOffScreen (wrapOffScreen p) = wrapOffScreen p := by
  unfold wrapOffScreen
  simp [wrapX_idem, wrapY_idem]

lemma wrapX_of_inBounds (x : Int) (h0 : 0 ≤ x) (h1 : x ≤ SCREEN_WIDTH) : wrapX x = x := by
  unfold wrapX SCREEN_WIDTH at *
  split_ifs <;> omega

lemma wrapY_of_inBounds (y : Int) (h0 : 0 ≤ y) (h1 : y ≤ SCREEN_HEIGHT) : wrapY y = y := by
  unfold wrapY SCREEN_HEIGHT at *
  split_ifs <;> omega

lemma wrapOffScreen_of_inBounds (p : Point)
    (hx0 : 0 ≤ p.x) (hx1 : p.x ≤ SCREEN_WIDTH) (hy0 : 0 ≤ p.y) (hy1 : p.y ≤ SCREEN_HEIGHT) :
    wrapOffScreen p = p := by
  unfold wrapOffScreen
  rw [wrapX_of_inBounds p.x hx0 hx1, wrapY_of_inBounds p.y hy0 hy1]

/-- Claim C5: `wrapOffScreen` treats each axis independently — a negative
coordinate becomes the max bound of its axis, a coordinate above the bound
becomes 0 with any overshoot discarded, an in-range coordinate is kept; in
particular `max + 1` becomes `0` and `-1` becomes the max bound. -/
theorem wrap_axis_behavior (x y : Int) :
    (x < 0 → wrapX x = SCREEN_WIDTH) ∧
    (x > SCREEN_WIDTH → wrapX x = 0) ∧
    (0 ≤ x → x ≤ SCREEN_WIDTH → wrapX x = x) ∧
    (y < 0 → wrapY y = SCREEN_HEIGHT) ∧
    (y > SCREEN_HEIGHT → wrapY y = 0) ∧
    (0 ≤ y → y ≤ SCREEN_HEIGHT → wrapY y = y) ∧
    wrapOffScreen { x := x, y := y } = { x := wrapX x, y := wrapY y } ∧
    wrapX (SCREEN_WIDTH + 1) = 0 ∧ wrapX (-1) = SCREEN_WIDTH ∧
    wrapY (SCREEN_HEIGHT + 1) = 0 ∧ wrapY (-1) = SCREEN_HEIGHT := by
  refine ⟨?_, ?_, ?_, ?_, ?_, ?_, rfl, by decide, by decide, by decide, by decide⟩ <;>
    (intros; simp only [wrapX, wrapY, SCREEN_WIDTH, SCREEN_HEIGHT] at *; split_ifs <;> omega)

/-- Witness for claim C5 at concrete coordinates. -/
theorem wrap_axis_behavior_witness :
    wrapX (-1) = SCREEN_WIDTH ∧ wrapY 11 = 0 ∧ wrapX 5 = 5 :=
  ⟨(wrap_axis_behavior (-1) 0).1 (by decide),
   (wrap_axis_behavior 0 11).2.2.2.2.1 (by decide),
   (wrap_axis_behavior 5 0).2.2.1 (by decide) (by decide)⟩

/-- Claim C10: `wrapOffScreen` lands in `[0, max]` on both axes and is
idempotent. -/
theorem wrap_idempotent_and_bounded (p : Point) :
    0 ≤ (wrapOffScreen p).x ∧ (wrapOffScreen p).x ≤ SCREEN_WIDTH ∧
    0 ≤ (wrapOffScreen p).y ∧ (wrapOffScreen p).y ≤ SCREEN_HEIGHT ∧
    wrapOffScreen (wrapOffScreen p) = wrapOffScreen p :=
  ⟨(wrapX_bounds p.x).1, (wrapX_bounds p.x).2,
   (wrapY_bounds p.y).1, (wrapY_bounds p.y).2,
   wrapOffScreen_idem p⟩

lemma theta_deg_bounds (dx dy : ℝ) (hdx : dx ≠ 0) (hdy : dy ≠ 0) :
    0 < degreesOfRadians (getTheta dx dy) ∧ degreesOfRadians (getTheta dx dy) < 90 := by
  have hq : 0 < |dy| / |dx| := div_pos (abs_pos.mpr hdy) (abs_pos.mpr hdx)
  have ha : 0 < Real.arctan (|dy| / |dx|) := by
    have := Real.arctan_strictMono hq
    rwa [Real.arctan_zero] at this
  have hb : Real.arctan (|dy| / |dx|) < Real.pi / 2 := Real.arctan_lt_pi_div_two _
  have hpi : 0 < Real.pi := Real.pi_pos
  unfold degreesOfRadians getTheta
  constructor
  · exact div_pos (mul_pos ha (by norm_num)) hpi
  · rw [div_lt_iff hpi]
    nlinarith [hb, hpi]

/-- Claim C6: the `angle` property agrees with the bearing formula of the
spec in every branch, and its value always lies in `[0, 360)`. -/
theorem angle_matches_spec_and_in_range (dx dy : ℝ) :
    getDegrees dx dy = specBearing dx dy ∧
    0 ≤ getDegrees dx dy ∧ getDegrees dx dy < 360 := by
  constructor
  · unfold getDegrees specBearing fixedForQuadrant getTheta
    rfl
  · unfold getDegrees
    by_cases hdy : dy = 0
    · by_cases hdx : 0 ≤ dx <;> simp [hdy, hdx] <;> norm_num
    · by_cases hdx : dx = 0
      · by_cases h : 0 < dy <;> simp [hdy, hdx, h] <;> norm_num
      · obtain ⟨h1, h2⟩ := theta_deg_bounds dx dy hdx hdy
        simp only [hdy, hdx, if_false]
        unfold fixedForQuadrant
        split_ifs <;> constructor <;> linarith

/-- Claim C9: the division inside `_getTheta` is never evaluated with a zero
divisor — the guarded version of `_getDegrees` never returns `none` and
agrees with the unguarded one everywhere. -/
theorem theta_division_guarded (dx dy : ℝ) :
    (getDegreesChecked dx dy).isSome = true ∧
    getDegreesChecked dx dy = some (getDegrees dx dy) := by
  have h : getDegreesChecked dx dy = some (getDegrees dx dy) := by
    unfold getDegreesChecked getDegrees getThetaChecked getTheta
    by_cases hdy : dy = 0
    · simp [hdy]
    · by_cases hdx : dx = 0
      · simp [hdy, hdx]
      · have habs : ¬(|dx| = 0) := by simpa [abs_eq_zero] using hdx
        simp [hdy, hdx, habs]
  exact ⟨by rw [h]; rfl, h⟩

lemma modifyAt_length (f : Ship → Ship) : ∀ (n : Nat) (l : List Ship),
    (modifyAt f n l).length = l.length := by
  intro n l
  induction l generalizing n with
  | nil => cases n <;> rfl
  | cons s rest ih => cases n with
    | zero => rfl
    | succ m => simpa [modifyAt] using ih m

lemma removeFirstAt_length (x y : Int) (l : List Ship)
    (h : (shipAtPoint x y l).isSome) :
    (removeFirstAt x y l).length + 1 = l.length := by
  induction l with
  | nil => simp [shipAtPoint] at h
  | cons s rest ih =>
    by_cases hc : s.center.x = x ∧ s.center.y = y
    · simp [removeFirstAt, hc]
    · simp only [shipAtPoint, hc, if_false] at h
      simpa [removeFirstAt, hc] using ih h

lemma removeLoop_length_bounds (x y : Int) : ∀ (fuel : Nat) (l : List Ship),
    1 ≤ l.length →
    1 ≤ (removeLoop x y fuel l).length ∧ (removeLoop x y fuel l).length ≤ l.length := by
  intro fuel
  induction fuel with
  | zero => intro l h; exact ⟨h, le_refl _⟩
  | succ n ih =>
    intro l h
    unfold removeLoop
    match hs : shipAtPoint x y l with
    | none => exact ⟨h, le_refl _⟩
    | some s =>
      by_cases hl : 1 < l.length
      · simp only [hl, if_true]
        have hlen : (removeFirstAt x y l).length + 1 = l.length :=
          removeFirstAt_length x y l (by rw [hs]; rfl)
        have h1 : 1 ≤ (removeFirstAt x y l).length := by omega
        obtain ⟨ha, hb⟩ := ih (removeFirstAt x y l) h1
        exact ⟨ha, by omega⟩
      · simp only [hl, if_false]
        exact ⟨h, le_refl _⟩

lemma manageShipList_count (x y rdx rdy : Int) (st : GameState)
    (h1 : 1 ≤ st.players.length) (h9 : st.players.length ≤ MAX_NUMBER_OF_SHIPS) :
    1 ≤ (manageShipList x y rdx rdy st).players.length ∧
    (manageShipList x y rdx rdy st).players.length ≤ MAX_NUMBER_OF_SHIPS := by
  unfold manageShipList
  split_ifs with hrem hcap
  · obtain ⟨ha, hb⟩ := removeLoop_length_bounds x y st.players.length st.players h1
    exact ⟨ha, le_trans hb h9⟩
  · simp only [List.length_append, List.length_cons, List.length_nil]
    unfold MAX_NUMBER_OF_SHIPS at *
    omega
  · exact ⟨h1, h9⟩

lemma step_preserves_count (st : GameState) (e : GEvent)
    (h1 : 1 ≤ st.players.length) (h9 : st.players.length ≤ MAX_NUMBER_OF_SHIPS) :
    1 ≤ (step st e).players.length ∧ (step st e).players.length ≤ MAX_NUMBER_OF_SHIPS := by
  cases e with
  | reset rx ry rdx rdy =>
    rcases hp : st.players with _ | ⟨s, rest⟩
    · rw [hp] at h1
      exact absurd h1 (by decide)
    · refine ⟨?_, ?_⟩ <;> simp [step, hp, MAX_NUMBER_OF_SHIPS]
  | advanceAll => simpa [step] using ⟨h1, h9⟩
  | velUp => simpa [step, modifyAt_length] using ⟨h1, h9⟩
  | velDown => simpa [step, modifyAt_length] using ⟨h1, h9⟩
  | velLeft => simpa [step, modifyAt_length] using ⟨h1, h9⟩
  | velRight => simpa [step, modifyAt_length] using ⟨h1, h9⟩
  | toggleDetail => exact ⟨h1, h9⟩
  | toggleWrap => simpa [step] using ⟨h1, h9⟩
  | toggleTimer => exact ⟨h1, h9⟩
  | selectIdx i =>
    simp only [step]
    split_ifs <;> exact ⟨h1, h9⟩
  | singleClick a b =>
    simp only [step]
    split_ifs <;> simpa [modifyAt_length] using ⟨h1, h9⟩
  | doubleClick a b =>
    simp only [step]
    split_ifs <;> simpa [modifyAt_length] using ⟨h1, h9⟩
  | rightClick a b c d => exact manageShipList_count a b c d st h1 h9
  | tick =>
    simp only [step, update]
    split_ifs <;> simpa using ⟨h1, h9⟩

lemma foldl_preserves_count (evs : List GEvent) : ∀ (st : GameState),
    1 ≤ st.players.length → st.players.length ≤ MAX_NUMBER_OF_SHIPS →
    1 ≤ (evs.foldl step st).players.length ∧
    (evs.foldl step st).players.length ≤ MAX_NUMBER_OF_SHIPS := by
  induction evs with
  | nil => intro st h1 h9; exact ⟨h1, h9⟩
  | cons e rest ih =>
    intro st h1 h9
    obtain ⟨ha, hb⟩ := step_preserves_count st e h1 h9
    simpa [List.foldl_cons] using ih (step st e) ha hb

/-- Claim C4: from the initial state, every event sequence keeps the number
of ships between 1 and `MAX_NUMBER_OF_SHIPS`. -/
theorem ship_count_bounded (rx ry rdx rdy : Int) (evs : List GEvent) :
    1 ≤ (reach (initState rx ry rdx rdy) evs).players.length ∧
    (reach (initState rx ry rdx rdy) evs).players.length ≤ MAX_NUMBER_OF_SHIPS := by
  apply foldl_preserves_count
  · simp [initState]
  · simp [initState, MAX_NUMBER_OF_SHIPS]

/-- Claim C7: the advance-all command maps `advance` over every ship exactly
once — each center grows elementwise by that ship's own velocity and is then
wrapped when wrap-mode is on — sets the opacity to its minimum 0, and
touches nothing else. -/
theorem advance_all_effect (st : GameState) :
    (step st GEvent.advanceAll).g_alpha = 0 ∧
    (step st GEvent.advanceAll).players
      = st.players.map (fun s =>
          { s with center :=
              if st.wrap then
                wrapOffScreen { x := s.center.x + s.velocity.dx, y := s.center.y + s.velocity.dy }
              else { x := s.center.x + s.velocity.dx, y := s.center.y + s.velocity.dy } }) ∧
    (step st GEvent.advanceAll).playerToManipulate = st.playerToManipulate ∧
    (step st GEvent.advanceAll).wrap = st.wrap ∧
    (step st GEvent.advanceAll).detailed = st.detailed ∧
    (step st GEvent.advanceAll).constantUpdate = st.constantUpdate :=
  ⟨rfl, rfl, rfl, rfl, rfl, rfl⟩

lemma map_wrap_twice (l : List Ship) :
    (l.map (fun s => { s with center := wrapOffScreen s.center })).map
        (fun s => { s with center := wrapOffScreen s.center })
      = l.map (fun s => { s with center := wrapOffScreen s.center }) := by
  induction l with
  | nil => rfl
  | cons s rest ih => simp [wrapOffScreen_idem, ih]

lemma map_wrap_of_inBounds (l : List Ship)
    (h : ∀ s ∈ l, 0 ≤ s.center.x ∧ s.center.x ≤ SCREEN_WIDTH ∧
          0 ≤ s.center.y ∧ s.center.y ≤ SCREEN_HEIGHT) :
    l.map (fun s => { s with center := wrapOffScreen s.center }) = l := by
  induction l with
  | nil => rfl
  | cons s rest ih =>
    obtain ⟨h1, h2, h3, h4⟩ := h s (List.mem_cons_self s rest)
    have hs : wrapOffScreen s.center = s.center := wrapOffScreen_of_inBounds s.center h1 h2 h3 h4
    have hr := ih (fun t ht => h t (List.mem_cons_of_mem s ht))
    simp [hs, hr]

/-- Claim C8, amended: toggling wrap twice restores the wrap flag, and each
toggle re-wraps every ship, so the double toggle replaces each center by its
wrapped value; positions already inside the grid are therefore unchanged,
while an off-screen position is moved by the first toggle. -/
theorem double_toggle_wrap_effect (st : GameState) :
    (step (step st GEvent.toggleWrap) GEvent.toggleWrap).wrap = st.wrap ∧
    (step (step st GEvent.toggleWrap) GEvent.toggleWrap).players
      = st.players.map (fun s => { s with center := wrapOffScreen s.center }) ∧
    ((∀ s ∈ st.players, 0 ≤ s.center.x ∧ s.center.x ≤ SCREEN_WIDTH ∧
        0 ≤ s.center.y ∧ s.center.y ≤ SCREEN_HEIGHT) →
      (step (step st GEvent.toggleWrap) GEvent.toggleWrap).players = st.players) := by
  refine ⟨?_, ?_, ?_⟩
  · simp [step]
  · simp only [step]
    exact map_wrap_twice st.players
  · intro h
    simp only [step]
    rw [map_wrap_of_inBounds st.players h, map_wrap_of_inBounds st.players h]

/-- Witness for claim C8 at the initial state (all positions in bounds). -/
theorem double_toggle_wrap_effect_witness :
    (step (step (initState 5 5 1 1) GEvent.toggleWrap) GEvent.toggleWrap).players
      = (initState 5 5 1 1).players :=
  (double_toggle_wrap_effect (initState 5 5 1 1)).2.2 (by decide)

/-- A reachable state holding one ship stranded off screen at x = 13 with
wrap-mode off: wrap is toggled off, the ship velocity is raised to dx = 8 by
eight arrow presses, and one advance-all moves the center to (13, 5). -/
def offScreenRun : GameState :=
  reach (initState 5 5 0 0)
    [GEvent.toggleWrap, GEvent.velRight, GEvent.velRight, GEvent.velRight, GEvent.velRight,
     GEvent.velRight, GEvent.velRight, GEvent.velRight, GEvent.velRight, GEvent.advanceAll]

/-- Counterexample to claim C8 as stated: from the reachable state
`offScreenRun` (one ship at x = 13, wrap off), toggling wrap twice restores
the flag but moves the ship — the first toggle wraps x = 13 to 0. -/
theorem double_toggle_moves_offscreen_ship :
    (step (step offScreenRun GEvent.toggleWrap) GEvent.toggleWrap).wrap = offScreenRun.wrap ∧
    (step (step offScreenRun GEvent.toggleWrap) GEvent.toggleWrap).players
      ≠ offScreenRun.players := by decide

/-- Counterexample to claim C3 as stated: one ship at cell (3, 4), a right
click on that very cell — the removal is skipped (it would empty the list)
but the handler then falls into the creation branch, so the collection ends
with 2 ships, not 1. -/
theorem rightclick_last_ship_creates_second :
    (step (initState 3 4 1 1) (GEvent.rightClick 3 4 2 2)).players.length = 2 := by decide

/-- Claim C3, amended: with exactly one ship, a right click on the cell that
ship occupies does not remove it, but (the removal loop never having run)
the handler proceeds to the creation branch: a new ship is appended at that
cell, leaving exactly 2 ships, the original one first; every other state
field is unchanged. -/
theorem rightclick_on_sole_ship_appends (st : GameState) (x y rdx rdy : Int) (s : Ship)
    (hp : st.players = [s]) (hx : s.center.x = x) (hy : s.center.y = y) :
    (step st (GEvent.rightClick x y rdx rdy)).players
      = [s, { center := { x := x, y := y }, velocity := { dx := rdx, dy := rdy } }] ∧
    (step st (GEvent.rightClick x y rdx rdy)).playerToManipulate = st.playerToManipulate ∧
    (step st (GEvent.rightClick x y rdx rdy)).wrap = st.wrap ∧
    (step st (GEvent.rightClick x y rdx rdy)).detailed = st.detailed ∧
    (step st (GEvent.rightClick x y rdx rdy)).constantUpdate = st.constantUpdate ∧
    (step st (GEvent.rightClick x y rdx rdy)).advanceTimer = st.advanceTimer ∧
    (step st (GEvent.rightClick x y rdx rdy)).g_alpha = st.g_alpha := by
  refine ⟨?_, ?_, ?_, ?_, ?_, ?_, ?_⟩ <;>
    simp [step, manageShipList, hp, shipAtPoint, hx, hy, MAX_NUMBER_OF_SHIPS]

/-- Witness for claim C3 at a concrete sole-ship state. -/
theorem rightclick_on_sole_ship_appends_witness :
    (step (initState 3 4 1 1) (GEvent.rightClick 3 4 2 2)).players
      = [shipReset 3 4 1 1,
         { center := { x := 3, y := 4 }, velocity := { dx := 2, dy := 2 } }] :=
  (rightclick_on_sole_ship_appends (initState 3 4 1 1) 3 4 2 2 (shipReset 3 4 1 1)
    rfl rfl rfl).1

/-- A reachable state exercising the reset handler with a stale selection:
two right clicks grow the list to 3 ships, digit key 3 selects index 2, and
then the reset command shrinks the list back to a single ship. -/
def staleIndexRunA : GameState :=
  reach (initState 5 5 0 0)
    [GEvent.rightClick 1 1 0 0, GEvent.rightClick 2 2 0 0, GEvent.selectIdx 2,
     GEvent.reset 7 6 2 (-1)]

/-- Claim C1 fails on the code: after the reset event of `staleIndexRunA`
the collection holds 1 ship while the selected index is still 2, so
0 ≤ index < count is violated (the source would then raise IndexError on the
next pointer click).  The reset handler never touches
`playerToManipulate`. -/
theorem reset_leaves_stale_selected_index :
    staleIndexRunA.players.length = 1 ∧
    staleIndexRunA.playerToManipulate = 2 ∧
    ¬(staleIndexRunA.playerToManipulate < (staleIndexRunA.players.length : Int)) := by decide

/-- A second reachable run into the reset handler with selected index 2,
used to evaluate claim C2. -/
def staleIndexRunB : GameState :=
  reach (initState 4 4 1 1)
    [GEvent.rightClick 1 2 0 0, GEvent.rightClick 3 4 0 0, GEvent.selectIdx 2,
     GEvent.reset 6 5 2 3]

/-- Claim C2 fails on the code in its index half: the reset command does
leave exactly one freshly reset ship, but the selected index stays at its
stale value 2 instead of being set to 0. -/
theorem reset_event_keeps_stale_index :
    staleIndexRunB.players = [shipReset 6 5 2 3] ∧
    staleIndexRunB.playerToManipulate = 2 := by decide
